import Mathlib

/-!
Shallow embedding of `include/ponder/uses/detail/lua.hpp` (the Ponder
library's Lua binding core): the value codec (`LuaValueWriter`,
`LuaValueReader`), the return-policy resolver (`ChooseCallReturner`,
`CallReturnCopy`, `CallReturnInternalRef`), the argument binder
(`ConvertArgs`) and the call dispatcher (`CallHelper`).

The Lua engine's stack is modelled as a `List LuaValue` indexed 1-based
from the bottom, as the C API indexes function arguments.  `lua_Integer`
is modelled as unbounded `Int` and `lua_Number` as `ℚ`; native integral
types carry an explicit width and signedness with two's-complement
narrowing where the C++ conversion narrows.  `luaL_error` (a longjmp out
of the conversion) is modelled with `Except`.
-/

namespace PonderLua

/-- The native store: observable value of the native object living at each
address.  `UserObject` reference handles point into this store. -/
abbrev Mem : Type := Nat → Int

/-- Update the native store at one address (a mutation of a native object). -/
def Mem.update (mem : Mem) (addr : Nat) (v : Int) : Mem :=
  fun a => if a = addr then v else mem a

/-- The opaque user-object handle (`ponder::UserObject`): it either owns a
copy of a native value (`makeCopy`) or holds a non-owning reference to
native storage (`makeRef`). -/
inductive UserObject where
  | copy (v : Int)
  | ref (addr : Nat)
  deriving DecidableEq, Repr

/-- The value an observer reads through a handle under a given native
store: an owned copy yields the copied value, a reference handle yields
whatever currently sits at the referenced address. -/
def UserObject.observe (mem : Mem) : UserObject → Int
  | .copy v => v
  | .ref addr => mem addr

/-- `UserObject::makeCopy`: the native object's current value is copied
into a new owned handle. -/
def UserObject.makeCopy (mem : Mem) (addr : Nat) : UserObject :=
  .copy (mem addr)

/-- `UserObject::makeRef`: a non-owning handle bound to the native
object's storage. -/
def UserObject.makeRef (addr : Nat) : UserObject :=
  .ref addr

/-- Modelled from the spec: `makeRef` applied to a value that is already
an opaque handle (`R = UserObject` in `CallReturnInternalRef`) wraps it as
a non-owning handle referencing the same native storage; the definition of
`UserObject::makeRef` for that overload is not under `src/`. -/
def UserObject.makeRefOfHandle (u : UserObject) : UserObject := u

/-- A value in one slot of the Lua engine's dynamic stack.  A userdata
slot carries the `UserObject` stored in its block (`lua_touserdata` hands
back a pointer to it). -/
inductive LuaValue where
  | nil
  | boolean (b : Bool)
  | integer (i : Int)
  | number (q : ℚ)
  | str (s : String)
  | userdata (u : UserObject)
  deriving DecidableEq, Repr

/-- The Lua engine's dynamic stack, bottom slot first; Lua function
arguments occupy slots `1 .. n`. -/
abbrev Stack : Type := List LuaValue

/-- `lua_isuserdata`-style slot access: 1-based index, `nil` for an
out-of-range index. -/
def getSlot (st : Stack) (index : Nat) : LuaValue :=
  st.getD (index - 1) .nil

/-- `lua_isuserdata(L, index)`. -/
def isUserdata (st : Stack) (index : Nat) : Bool :=
  match getSlot st index with
  | .userdata _ => true
  | _ => false

/-- `lua_touserdata(L, index)`: the `UserObject` stored in a userdata
slot's block, `none` (NULL in C) otherwise. -/
def touserdata (st : Stack) (index : Nat) : Option UserObject :=
  match getSlot st index with
  | .userdata u => some u
  | _ => none

/-- `lua_tointeger(L, index)`: the engine's native coercion of a slot to
`lua_Integer`; non-numeric slots coerce to 0. -/
def luaToInteger (st : Stack) (index : Nat) : Int :=
  match getSlot st index with
  | .integer i => i
  | .number q => if q.den = 1 then q.num else 0
  | _ => 0

/-- `lua_tonumber(L, index)`: the engine's native coercion of a slot to
`lua_Number`; non-numeric slots coerce to 0. -/
def luaToNumber (st : Stack) (index : Nat) : ℚ :=
  match getSlot st index with
  | .integer i => (i : ℚ)
  | .number q => q
  | _ => 0

/-- `lua_tostring(L, index)`: string slots yield their content, numeric
slots coerce to their textual form, anything else yields NULL (modelled as
the empty view the C++ side would wrap it in). -/
def luaToString (st : Stack) (index : Nat) : String :=
  match getSlot st index with
  | .str s => s
  | .integer i => toString i
  | .number q => toString q
  | _ => ""

/-- A native integral type: magnitude width in bits plus signedness.
`signedInt bits` ranges over `[-2^bits, 2^bits)` (so C `int8_t` is
`signedInt 7`); `unsignedInt bits` over `[0, 2^bits)`. -/
inductive IntegralType where
  | signedInt (bits : Nat)
  | unsignedInt (bits : Nat)
  deriving DecidableEq, Repr

/-- Whether an integer lies in the native integral type's representable
range. -/
def IntegralType.inRange : IntegralType → Int → Prop
  | .signedInt bits, i => -(2 ^ bits : Int) ≤ i ∧ i < (2 ^ bits : Int)
  | .unsignedInt bits, i => 0 ≤ i ∧ i < (2 ^ bits : Int)

instance (t : IntegralType) (i : Int) : Decidable (t.inRange i) := by
  cases t <;> simp only [IntegralType.inRange] <;> infer_instance

/-- Two's-complement narrowing of a `lua_Integer` into the native integral
type, as the implicit C++ conversion on `return lua_tointeger(L, index);`
narrows. -/
def IntegralType.narrow : IntegralType → Int → Int
  | .signedInt bits, i => (i + 2 ^ bits) % 2 ^ (bits + 1) - 2 ^ bits
  | .unsignedInt bits, i => i % 2 ^ bits

/-- The categories of declared parameter types the reader dispatches over
(`LuaValueReader`'s specializations). -/
inductive ParamType where
  | integral (t : IntegralType)
  | floating
  | enum
  | stringView
  | user
  deriving DecidableEq, Repr

/-- A converted native argument value. -/
inductive NativeValue where
  | int (i : Int)
  | num (q : ℚ)
  | str (s : String)
  | user (u : UserObject)
  deriving DecidableEq, Repr

/-- A failure escaping the conversion path: an error raised through
`luaL_error`, or undefined behaviour (the null-pointer dereference the
source performs when `lua_touserdata` returns NULL). -/
inductive Failure where
  | luaError (msg : String)
  | undefinedBehavior
  deriving DecidableEq, Repr

/-- The message `luaL_error(L, "Argument %d: expecting user data", index)`
raises. -/
def argumentTypeError (index : Nat) : Failure :=
  .luaError ("Argument " ++ toString index ++ ": expecting user data")

/-- `LuaValueReader<P>::convert(L, index)`, all specializations, reading
the 1-based stack slot `index`:
* integral `P`: `return lua_tointeger(L, index);` — the engine coercion
  followed by the implicit narrowing conversion to `P`;
* floating-point `P`: `return lua_tonumber(L, index);`;
* enum `P`: `static_cast<P>(lua_tointeger(L, index))`, no range check
  (the enum's underlying integer is the model);
* `string_view`: `ParamType(lua_tostring(L, index))`, a view of the
  engine's string storage;
* user type `P`: `luaL_error` with `"Argument %d: expecting user data"`
  when `lua_isuserdata(L, index)` fails; otherwise the source reads
  `lua_touserdata(L, 1)` — slot 1, not `index` — and returns
  `uobj->ref<P>()` on the handle found there (dereferencing NULL when
  slot 1 is not userdata). -/
def luaValueReader (p : ParamType) (st : Stack) (index : Nat) :
    Except Failure NativeValue :=
  match p with
  | .integral t => .ok (.int (t.narrow (luaToInteger st index)))
  | .floating => .ok (.num (luaToNumber st index))
  | .enum => .ok (.int (luaToInteger st index))
  | .stringView => .ok (.str (luaToString st index))
  | .user =>
      if isUserdata st index = false then
        .error (argumentTypeError index)
      else
        match touserdata st 1 with
        | some u => .ok (.user u)
        | none => .error .undefinedBehavior

/-- `ConvertArgs<P>::convert(L, index)`: delegates to the reader at stack
position `index + 1`, `index` being the 0-based entry of the
`index_sequence` over the declared parameters. -/
def convertArg (p : ParamType) (st : Stack) (index : Nat) :
    Except Failure NativeValue :=
  luaValueReader p st (index + 1)

/-- The expansion `ConvertArgs<A>::convert(L, Is)...` over the declared
parameter list, sequence indices counting up from `k`; the first failing
conversion aborts the whole expansion (its `luaL_error` unwinds out of the
call). -/
def convertFrom (st : Stack) : List ParamType → Nat →
    Except Failure (List NativeValue)
  | [], _ => .ok []
  | p :: ps, k => do
      let v ← convertArg p st k
      let rest ← convertFrom st ps (k + 1)
      .ok (v :: rest)

/-- The policy tags a registration's policy list may hold
(`policy::ReturnCopy`, `policy::ReturnInternalRef`, and any other entry). -/
inductive PolicyTag where
  | returnCopy
  | returnInternalRef
  | other (n : Nat)
  deriving DecidableEq, Repr

/-- The two return-handling strategies (`CallReturnCopy` and
`CallReturnInternalRef`). -/
inductive Returner where
  | copyReturner
  | internalRefReturner
  deriving DecidableEq, Repr

/-- `ChooseCallReturner<Policies, R>`: a head of `policy::ReturnCopy`
selects `CallReturnCopy`, a head of `policy::ReturnInternalRef` selects
`CallReturnInternalRef`, the empty list defaults to `CallReturnCopy`, and
any other head recurses on the tail. -/
def chooseCallReturner : List PolicyTag → Returner
  | [] => .copyReturner
  | .returnCopy :: _ => .copyReturner
  | .returnInternalRef :: _ => .internalRefReturner
  | .other _ :: ps => chooseCallReturner ps

/-- A native return value, by the categories the returners dispatch over:
a primitive (integral / floating / string) value, a user-type object
living at a native address, or a value that is already a `UserObject`
handle. -/
inductive RetValue where
  | int (i : Int)
  | num (q : ℚ)
  | str (s : String)
  | user (addr : Nat)
  | uobj (u : UserObject)
  deriving DecidableEq, Repr

/-- Whether `detail::IsUserType<R>` holds for the return value's type. -/
def RetValue.isUserType : RetValue → Bool
  | .user _ => true
  | _ => false

/-- Whether the return value's raw type is `UserObject` itself. -/
def RetValue.isUserObject : RetValue → Bool
  | .uobj _ => true
  | _ => false

/-- Modelled from the spec: `ponder::lua::pushUserObject` (forward
declared in the source, defined elsewhere in the repository) writes the
handle onto the stack as one opaque userdata value and reports count 1. -/
def pushUserObject (u : UserObject) (st : Stack) : Nat × Stack :=
  (1, st ++ [.userdata u])

/-- `LuaValueWriter<R>::push` for the non-user-type specializations
(integral via `lua_pushinteger`, floating via `lua_pushnumber`, strings
via `lua_pushstring`) and `LuaValueWriter<UserObject>::push` (which
delegates to `pushUserObject`); each pushes exactly one value and returns
count 1.  A plain user-type value has no writer specialization; the
returners below never pass one. -/
def luaValueWriter (mem : Mem) (r : RetValue) (st : Stack) : Nat × Stack :=
  match r with
  | .int i => (1, st ++ [.integer i])
  | .num q => (1, st ++ [.number q])
  | .str s => (1, st ++ [.str s])
  | .uobj u => pushUserObject u st
  | .user addr => (1, st ++ [.integer (mem addr)])

/-- `CallReturnCopy<R>::value(L, o)`: when `R` is not a user type the
writer pushes the value directly; when `R` is a user type the value is
first copied into a new owned handle by `UserObject::makeCopy` and that
handle is pushed as userdata. -/
def callReturnCopy (mem : Mem) (r : RetValue) (st : Stack) : Nat × Stack :=
  match r with
  | .user addr => pushUserObject (UserObject.makeCopy mem addr) st
  | v => luaValueWriter mem v st

/-- `CallReturnInternalRef<R>::value(L, o)`: when `R` is neither a user
type nor `UserObject` the writer pushes the value directly; when `R` is a
user type (or already a `UserObject`) the value is wrapped by
`UserObject::makeRef` into a non-owning handle and pushed as userdata. -/
def callReturnInternalRef (mem : Mem) (r : RetValue) (st : Stack) :
    Nat × Stack :=
  match r with
  | .user addr => pushUserObject (UserObject.makeRef addr) st
  | .uobj u => pushUserObject (UserObject.makeRefOfHandle u) st
  | v => luaValueWriter mem v st

/-- Dispatch on the chosen returner. -/
def applyReturner (ret : Returner) (mem : Mem) (r : RetValue) (st : Stack) :
    Nat × Stack :=
  match ret with
  | .copyReturner => callReturnCopy mem r st
  | .internalRefReturner => callReturnInternalRef mem r st

/-- `CallHelper<R, FTraits, FPolicies>::call` for a non-void return type:
expand all argument conversions, invoke the native callable `f` on the
converted arguments (threading its side-effect state `σ`), then hand the
result to the returner chosen from the policy list; a conversion failure
unwinds before `f` runs, leaving the side-effect state untouched. -/
def callHelperCall {σ : Type} (pol : List PolicyTag)
    (params : List ParamType) (f : List NativeValue → σ → RetValue × σ)
    (mem : Mem) (st : Stack) (eff : σ) :
    Except Failure (Nat × Stack) × σ :=
  match convertFrom st params 0 with
  | .error e => (.error e, eff)
  | .ok args =>
      let (r, eff') := f args eff
      (.ok (applyReturner (chooseCallReturner pol) mem r st), eff')

/-- `CallHelper<void, FTraits, FPolicies>::call`: expand all argument
conversions, invoke the native callable for its side effect, push nothing
and report zero results. -/
def callHelperVoid {σ : Type} (params : List ParamType)
    (f : List NativeValue → σ → σ) (st : Stack) (eff : σ) :
    Except Failure (Nat × Stack) × σ :=
  match convertFrom st params 0 with
  | .error e => (.error e, eff)
  | .ok args => (.ok (0, st), f args eff)

/-- Whether a policy-list entry is one of the recognized policy tags. -/
def PolicyTag.isKnown : PolicyTag → Bool
  | .returnCopy => true
  | .returnInternalRef => true
  | .other _ => false

/-- The strategy a recognized policy tag selects. -/
def PolicyTag.toReturner : PolicyTag → Returner
  | .returnCopy => .copyReturner
  | .returnInternalRef => .internalRefReturner
  | .other _ => .copyReturner

/-- The spec's resolution algorithm, stated as written: scan the policy
list left to right, the first entry matching a known policy tag determines
the strategy, and an empty list yields CopyReturn. -/
def specChooseReturner (ps : List PolicyTag) : Returner :=
  match ps.find? PolicyTag.isKnown with
  | some t => t.toReturner
  | none => .copyReturner

end PonderLua

namespace PonderLua

/-- Reading the slot just pushed on top of the stack yields the pushed
value. -/
lemma getSlot_append_singleton (st : Stack) (x : LuaValue) :
    getSlot (st ++ [x]) (st.length + 1) = x := by
  simp [getSlot]

/-- Narrowing to a native integral type is the identity on values inside
the type's representable range. -/
lemma IntegralType.narrow_of_inRange (t : IntegralType) (v : Int)
    (h : t.inRange v) : t.narrow v = v := by
  cases t with
  | signedInt bits =>
      obtain ⟨h1, h2⟩ := h
      have hpow : (2 : Int) ^ (bits + 1) = 2 ^ bits * 2 := pow_succ 2 bits
      have hlo : 0 ≤ v + 2 ^ bits := by omega
      have hhi : v + 2 ^ bits < 2 ^ (bits + 1) := by omega
      simp only [IntegralType.narrow]
      rw [Int.emod_eq_of_lt hlo hhi]
      omega
  | unsignedInt bits =>
      obtain ⟨h1, h2⟩ := h
      simp only [IntegralType.narrow]
      exact Int.emod_eq_of_lt h1 h2

/-- A successful argument expansion maps each 0-based parameter position
`i` to the conversion read at sequence index `k + i`. -/
lemma convertFrom_get? (st : Stack) :
    ∀ (ps : List ParamType) (k : Nat) (args : List NativeValue),
      convertFrom st ps k = .ok args →
      ∀ i, args.get? i
        = (ps.get? i).bind fun p => (convertArg p st (k + i)).toOption := by
  intro ps
  induction ps with
  | nil =>
      intro k args h i
      simp only [convertFrom] at h
      cases h
      simp
  | cons p ps ih =>
      intro k args h i
      simp only [convertFrom, bind, Except.bind] at h
      cases hv : convertArg p st k with
      | error e => rw [hv] at h; cases h
      | ok v =>
          rw [hv] at h
          cases hrest : convertFrom st ps (k + 1) with
          | error e => rw [hrest] at h; cases h
          | ok rest =>
              rw [hrest] at h
              cases h
              cases i with
              | zero => simp [hv, Except.toOption]
              | succ i =>
                  have := ih (k + 1) rest hrest i
                  simpa [Nat.add_assoc, Nat.add_comm 1 i] using this

/-- A failing conversion at parameter position `j`, all earlier positions
converting successfully, aborts the whole expansion with that failure. -/
lemma convertFrom_error_at (st : Stack) :
    ∀ (ps : List ParamType) (k j : Nat) (p : ParamType) (e : Failure),
      ps.get? j = some p →
      convertArg p st (k + j) = .error e →
      (∀ i pi, i < j → ps.get? i = some pi →
        ∃ v, convertArg pi st (k + i) = .ok v) →
      convertFrom st ps k = .error e := by
  intro ps
  induction ps with
  | nil => intro k j p e hget; simp at hget
  | cons p0 ps ih =>
      intro k j p e hget herr hpre
      cases j with
      | zero =>
          simp only [List.get?] at hget
          cases hget
          simp only [convertFrom, bind, Except.bind]
          rw [show k + 0 = k from rfl] at herr
          rw [herr]
      | succ j =>
          obtain ⟨v0, hv0⟩ := hpre 0 p0 (Nat.succ_pos j) rfl
          simp only [convertFrom, bind, Except.bind]
          rw [show k + 0 = k from rfl] at hv0
          rw [hv0]
          have htail : convertFrom st ps (k + 1) = .error e := by
            apply ih (k + 1) j p e hget
            · rw [show k + 1 + j = k + (j + 1) from by omega]; exact herr
            · intro i pi hi hgi
              have := hpre (i + 1) pi (by omega) hgi
              rw [show k + (i + 1) = k + 1 + i from by omega] at this
              exact this
          rw [htail]

/-- A successful expansion is exactly as long as the parameter list. -/
lemma convertFrom_length (st : Stack) :
    ∀ (ps : List ParamType) (k : Nat) (args : List NativeValue),
      convertFrom st ps k = .ok args → args.length = ps.length := by
  intro ps
  induction ps with
  | nil => intro k args h; simp only [convertFrom] at h; cases h; rfl
  | cons p ps ih =>
      intro k args h
      simp only [convertFrom, bind, Except.bind] at h
      cases hv : convertArg p st k with
      | error e => rw [hv] at h; cases h
      | ok v =>
          rw [hv] at h
          cases hrest : convertFrom st ps (k + 1) with
          | error e => rw [hrest] at h; cases h
          | ok rest =>
              rw [hrest] at h
              cases h
              simp [ih (k + 1) rest hrest]

/-- Readers for every non-user-type parameter category are total: they
return the engine's coerced value and never raise. -/
lemma luaValueReader_ok_of_ne_user (p : ParamType) (st : Stack) (i : Nat)
    (h : p ≠ .user) : ∃ v, luaValueReader p st i = .ok v := by
  cases p with
  | integral t => exact ⟨_, rfl⟩
  | floating => exact ⟨_, rfl⟩
  | enum => exact ⟨_, rfl⟩
  | stringView => exact ⟨_, rfl⟩
  | user => exact absurd rfl h

/-- A parameter list free of user-type parameters always converts. -/
lemma convertFrom_ok_of_no_user (st : Stack) :
    ∀ (ps : List ParamType) (k : Nat), (∀ p ∈ ps, p ≠ .user) →
      ∃ args, convertFrom st ps k = .ok args := by
  intro ps
  induction ps with
  | nil => intro k _; exact ⟨[], rfl⟩
  | cons p ps ih =>
      intro k hall
      obtain ⟨v, hv⟩ := luaValueReader_ok_of_ne_user p st (k + 1)
        (hall p (List.mem_cons_self p ps))
      obtain ⟨rest, hrest⟩ := ih (k + 1) (fun q hq => hall q (List.mem_cons_of_mem p hq))
      refine ⟨v :: rest, ?_⟩
      simp only [convertFrom, bind, Except.bind, convertArg]
      rw [hv, hrest]

/-- C3: the return-handling strategy is chosen by scanning the declared
policy list left to right and taking the first entry matching a known
policy tag (ReturnCopy or ReturnInternalRef); the empty list yields the
CopyReturn strategy.  `ChooseCallReturner` computes exactly the spec's
first-match-wins scan. -/
theorem choose_call_returner_first_known_tag_wins
    (ps : List PolicyTag) : chooseCallReturner ps = specChooseReturner ps := by
  induction ps with
  | nil => rfl
  | cons p ps ih =>
      cases p with
      | returnCopy => rfl
      | returnInternalRef => rfl
      | other n =>
          simp only [chooseCallReturner, specChooseReturner, List.find?, PolicyTag.isKnown]
          exact ih

/-- C4: under the CopyReturn policy a user-type return value is copied
into a new owned `UserObject` by `makeCopy` and that handle is written to
the stack as one opaque userdata value; the handle is independent of the
original — mutating the native object afterward leaves the handle's
observed value at the value it had when copied. -/
theorem copy_return_usertype_handle_independent
    (mem : Mem) (addr : Nat) (w : Int) (st : Stack) :
    callReturnCopy mem (.user addr) st
      = (1, st ++ [.userdata (UserObject.makeCopy mem addr)]) ∧
    (UserObject.makeCopy mem addr).observe (Mem.update mem addr w)
      = mem addr := by
  exact ⟨rfl, rfl⟩

/-- C5: under the InternalRefReturn policy a user-type return value (or a
value that is already a `UserObject` handle) is wrapped by `makeRef` into
a non-owning handle and written to the stack as one opaque userdata value;
the handle aliases the original — after mutating the native object the
handle observes the new value. -/
theorem internal_ref_return_usertype_handle_aliases
    (mem : Mem) (addr : Nat) (w : Int) (st : Stack) (u : UserObject) :
    callReturnInternalRef mem (.user addr) st
      = (1, st ++ [.userdata (UserObject.makeRef addr)]) ∧
    callReturnInternalRef mem (.uobj u) st
      = (1, st ++ [.userdata (UserObject.makeRefOfHandle u)]) ∧
    (UserObject.makeRef addr).observe (Mem.update mem addr w) = w := by
  refine ⟨rfl, rfl, ?_⟩
  simp [UserObject.makeRef, UserObject.observe, Mem.update]

/-- C8: for a return value whose type is neither a user type nor the
opaque `UserObject` handle, `CallReturnInternalRef` behaves identically to
`CallReturnCopy`: the same value is written through the value codec, with
the same resulting stack and the same result count. -/
theorem internal_ref_matches_copy_for_non_user_returns
    (mem : Mem) (st : Stack) (r : RetValue)
    (h1 : r.isUserType = false) (h2 : r.isUserObject = false) :
    callReturnInternalRef mem r st = callReturnCopy mem r st := by
  cases r with
  | int i => rfl
  | num q => rfl
  | str s => rfl
  | user addr => simp [RetValue.isUserType] at h1
  | uobj u => simp [RetValue.isUserObject] at h2

theorem internal_ref_matches_copy_for_non_user_returns_witness :
    (RetValue.int 5).isUserType = false ∧
    callReturnInternalRef (fun _ => 0) (.int 5) []
      = callReturnCopy (fun _ => 0) (.int 5) [] :=
  ⟨rfl, internal_ref_matches_copy_for_non_user_returns
    (fun _ => 0) [] (.int 5) rfl rfl⟩

/-- C9: the void specialization of `CallHelper` pushes nothing and reports
zero results: whenever a dispatch of a void-returning function completes,
the result count is 0 and the stack is exactly the stack it was handed,
for every parameter list, argument stack and native callable. -/
theorem void_return_reports_zero_results {σ : Type}
    (params : List ParamType) (f : List NativeValue → σ → σ)
    (st : Stack) (eff : σ) (n : Nat) (st' : Stack)
    (h : (callHelperVoid params f st eff).1 = .ok (n, st')) :
    n = 0 ∧ st' = st := by
  unfold callHelperVoid at h
  cases hc : convertFrom st params 0 with
  | error e => rw [hc] at h; cases h
  | ok args =>
      rw [hc] at h
      simp only [Except.ok.injEq, Prod.mk.injEq] at h
      exact ⟨h.1.symm, h.2.symm⟩

theorem void_return_reports_zero_results_witness :
    (callHelperVoid (σ := Nat) [.integral (.signedInt 7)]
        (fun _ n => n + 1) [.integer 3] 0).1 = .ok (0, [.integer 3]) ∧
    (0 = 0 ∧ [LuaValue.integer 3] = [LuaValue.integer 3]) :=
  ⟨rfl, void_return_reports_zero_results [.integral (.signedInt 7)]
    (fun _ n => n + 1) [.integer 3] 0 0 [.integer 3] rfl⟩

/-- C1 (evaluation at the failing input): the user-type reader guards with
`lua_isuserdata(L, index)` but fetches the payload with
`lua_touserdata(L, 1)`, so for a call `f(a, b)` with both parameters
declared as user types and distinct userdata in slots 1 and 2, argument 2
binds the handle stored in slot 1 — slot 2's distinct handle is never
read, contradicting the claimed one-to-one slot binding. -/
theorem usertype_second_argument_reads_slot_one :
    convertFrom [.userdata (.copy 10), .userdata (.copy 20)] [.user, .user] 0
      = .ok [.user (.copy 10), .user (.copy 10)] ∧
    getSlot [.userdata (.copy 10), .userdata (.copy 20)] 2
      = .userdata (.copy 20) ∧
    UserObject.copy 10 ≠ UserObject.copy 20 := by
  refine ⟨rfl, rfl, by decide⟩

/-- C2: when the parameter at 0-based position `j` is declared as a user
type and stack slot `j + 1` does not hold userdata, the dispatch raises
`luaL_error` with the message citing the 1-based argument index `j + 1`
and the expected kind "user data"; the conclusion holds for every native
callable `f` and returns the side-effect state unchanged, so the callable
is never invoked. -/
theorem usertype_mismatch_raises_argument_type_error {σ : Type}
    (params : List ParamType) (j : Nat) (st : Stack)
    (h1 : params.get? j = some .user)
    (h2 : isUserdata st (j + 1) = false)
    (h3 : ∀ i pi, i < j → params.get? i = some pi →
      ∃ v, convertArg pi st i = .ok v)
    (pol : List PolicyTag) (f : List NativeValue → σ → RetValue × σ)
    (mem : Mem) (eff : σ) :
    callHelperCall pol params f mem st eff
      = (.error (argumentTypeError (j + 1)), eff) := by
  have herr : convertArg .user st j = .error (argumentTypeError (j + 1)) := by
    simp only [convertArg, luaValueReader, h2, if_true]
  have hconv : convertFrom st params 0 = .error (argumentTypeError (j + 1)) := by
    apply convertFrom_error_at st params 0 j .user _ h1
    · rw [Nat.zero_add]; exact herr
    · intro i pi hi hgi
      have := h3 i pi hi hgi
      rwa [Nat.zero_add]
  unfold callHelperCall
  rw [hconv]

theorem usertype_mismatch_raises_argument_type_error_witness :
    callHelperCall (σ := Nat) [] [.integral (.signedInt 7), .user]
        (fun _ n => (.int 0, n + 1)) (fun _ => 0) [.integer 1, .integer 2] 0
      = (.error (argumentTypeError 2), 0) :=
  usertype_mismatch_raises_argument_type_error
    [.integral (.signedInt 7), .user] 1 [.integer 1, .integer 2]
    rfl rfl
    (by
      intro i pi hi hgi
      have hz : i = 0 := by omega
      subst hz
      simp only [List.get?] at hgi
      cases hgi
      exact ⟨_, rfl⟩)
    [] (fun _ n => (.int 0, n + 1)) (fun _ => 0) 0

/-- C6: during a dispatch every argument conversion completes before the
native callable runs and the conversions follow declaration order: on a
successful expansion the `i`-th converted argument is exactly the reader's
result for the `i`-th declared parameter at stack slot `i + 1`, and the
callable is applied to the full list only afterwards; on a conversion
failure the dispatch returns that failure with the callable's side-effect
state untouched — the callable is never invoked. -/
theorem arguments_converted_in_declaration_order {σ : Type}
    (pol : List PolicyTag) (params : List ParamType)
    (f : List NativeValue → σ → RetValue × σ)
    (mem : Mem) (st : Stack) (eff : σ) :
    (∀ args, convertFrom st params 0 = .ok args →
      (∀ i, args.get? i
          = (params.get? i).bind fun p => (convertArg p st i).toOption) ∧
      callHelperCall pol params f mem st eff
        = (.ok (applyReturner (chooseCallReturner pol) mem
            (f args eff).1 st), (f args eff).2)) ∧
    (∀ e, convertFrom st params 0 = .error e →
      callHelperCall pol params f mem st eff = (.error e, eff)) := by
  constructor
  · intro args hok
    constructor
    · intro i
      have := convertFrom_get? st params 0 args hok i
      simpa [Nat.zero_add] using this
    · unfold callHelperCall
      rw [hok]
  · intro e herr
    unfold callHelperCall
    rw [herr]

theorem arguments_converted_in_declaration_order_witness :
    [NativeValue.int 5].get? 0
      = ([ParamType.integral (.signedInt 7)].get? 0).bind
          (fun p => (convertArg p [.integer 5] 0).toOption) :=
  ((arguments_converted_in_declaration_order (σ := Nat)
      [] [.integral (.signedInt 7)] (fun _ n => (.int 0, n))
      (fun _ => 0) [.integer 5] 0).1 [.int 5] rfl).1 0

/-- C7: writing an integral value inside the native type's representable
range (resp. a floating-point value) onto the stack and reading it back
from the slot just written yields the original value. -/
theorem integral_floating_write_read_roundtrip
    (mem : Mem) (t : IntegralType) (v : Int) (st : Stack) (q : ℚ)
    (h : t.inRange v) :
    luaValueReader (.integral t)
        (luaValueWriter mem (.int v) st).2 (st.length + 1) = .ok (.int v) ∧
    luaValueReader .floating
        (luaValueWriter mem (.num q) st).2 (st.length + 1) = .ok (.num q) := by
  constructor
  · simp only [luaValueWriter, luaValueReader, luaToInteger,
      getSlot_append_singleton, t.narrow_of_inRange v h]
  · simp only [luaValueWriter, luaValueReader, luaToNumber,
      getSlot_append_singleton]

theorem integral_floating_write_read_roundtrip_witness :
    IntegralType.inRange (.signedInt 7) (-5) ∧
    (luaValueReader (.integral (.signedInt 7))
        (luaValueWriter (fun _ => 0) (.int (-5)) []).2 1 = .ok (.int (-5)) ∧
     luaValueReader .floating
        (luaValueWriter (fun _ => 0) (.num (3 / 2)) []).2 1
          = .ok (.num (3 / 2))) :=
  ⟨by decide, integral_floating_write_read_roundtrip
    (fun _ => 0) (.signedInt 7) (-5) [] (3 / 2) (by decide)⟩

/-- C10: only user-type parameters are type-checked at call time.  Every
reader for an integral, floating-point, enum or string-view parameter is
total — it returns the engine's coerced value for any slot and never
raises through the error channel — and a dispatch whose parameter list
contains no user-type parameter always converts all arguments and invokes
the native callable. -/
theorem non_user_parameters_never_type_checked :
    (∀ (p : ParamType) (st : Stack) (i : Nat), p ≠ .user →
      ∃ v, luaValueReader p st i = .ok v) ∧
    (∀ (t : IntegralType) (st : Stack) (i : Nat) (b : Bool),
      getSlot st i = .boolean b →
      luaValueReader (.integral t) st i = .ok (.int 0)) ∧
    (∀ (σ : Type) (params : List ParamType)
        (f : List NativeValue → σ → σ) (st : Stack) (eff : σ),
      (∀ p ∈ params, p ≠ .user) →
      ∃ args, convertFrom st params 0 = .ok args ∧
        callHelperVoid params f st eff = (.ok (0, st), f args eff)) := by
  refine ⟨luaValueReader_ok_of_ne_user, ?_, ?_⟩
  · intro t st i b hslot
    simp only [luaValueReader, luaToInteger, hslot]
    rw [t.narrow_of_inRange 0 ?_]
    cases t with
    | signedInt bits =>
        have hp : (0 : Int) < 2 ^ bits := by positivity
        exact ⟨by omega, hp⟩
    | unsignedInt bits =>
        exact ⟨le_refl 0, by positivity⟩
  · intro σ params f st eff hall
    obtain ⟨args, hargs⟩ := convertFrom_ok_of_no_user st params 0 hall
    refine ⟨args, hargs, ?_⟩
    unfold callHelperVoid
    rw [hargs]

theorem non_user_parameters_never_type_checked_witness :
    (∃ v, luaValueReader .stringView [.integer 7] 1 = .ok v) ∧
    (∃ args, convertFrom [.str "x"] [.integral (.signedInt 7)] 0 = .ok args ∧
      callHelperVoid (σ := Nat) [.integral (.signedInt 7)]
        (fun _ n => n + 1) [.str "x"] 0
          = (.ok (0, [.str "x"]), (fun _ n => n + 1) args 0)) :=
  ⟨non_user_parameters_never_type_checked.1 .stringView [.integer 7] 1
      (by decide),
   non_user_parameters_never_type_checked.2.2 Nat [.integral (.signedInt 7)]
      (fun _ n => n + 1) [.str "x"] 0 (by decide)⟩

end PonderLua
